import Mathlib

/-!
Shallow embedding of the fastmlx inference gateway (src/fastmlx/fastmlx.py,
src/fastmlx/utils.py, src/fastmlx/types/chat/chat_completion.py) and proofs
about its model cache, request router, stream encoders and tool-call
extractor.

Python strings are modeled as Lean `String` (lists of characters); Python
`dict`s as association lists with Python's insertion-order/overwrite
semantics; Python exceptions as an explicit `PyErr` error type threaded via
`Except`.  External collaborators (the MLX generator, tokenizer templates,
the tools configuration directory) are opaque parameters, exactly as the
source treats them.
-/

set_option maxRecDepth 40000
set_option linter.unusedVariables false

/-- Left brace character, written via its code point. -/
def lbrace : Char := Char.ofNat 123

/-- Right brace character, written via its code point. -/
def rbrace : Char := Char.ofNat 125

/-- Python whitespace set used by `str.strip()` (ASCII part). -/
def pySpace (c : Char) : Bool :=
  c = ' ' || c = '\t' || c = '\n' || c = '\r' || c = '\x0b' || c = '\x0c'

/-- Python `str.strip()` restricted to the ASCII whitespace characters. -/
def pyStrip (s : String) : String :=
  String.mk (((s.data.dropWhile pySpace).reverse.dropWhile pySpace).reverse)

/-- Whether `pre` is a prefix of `s`, comparing characters exactly. -/
def listIsPref : List Char → List Char → Bool
  | [], _ => true
  | _ :: _, [] => false
  | p :: ps, c :: cs => p = c && listIsPref ps cs

/-- Python substring containment `needle in hay`. -/
def listContainsSub : List Char → List Char → Bool
  | [], needle => needle.isEmpty
  | c :: tl, needle => listIsPref needle (c :: tl) || listContainsSub tl needle

/-- Python `needle in hay` on strings. -/
def strContains (hay needle : String) : Bool := listContainsSub hay.data needle.data

/-- Python `str.lower()` (ASCII case mapping). -/
def pyLower (s : String) : String := String.mk (s.data.map Char.toLower)

deriving instance DecidableEq for Except

/-- Python exceptions that the embedded code can raise.  `httpException`
models FastAPI's `HTTPException(status_code, detail)`. -/
inductive PyErr where
  | keyError (key : String)
  | typeError (msg : String)
  | valueError (msg : String)
  | indexError (msg : String)
  | attributeError (msg : String)
  | validationError (msg : String)
  | jsonDecodeError (msg : String)
  | unboundLocal (name : String)
  | httpException (status : Nat) (detail : String)
deriving DecidableEq, Repr

mutual
/-- JSON values as produced by Python's `json.loads`.  Objects keep
insertion order (Python `dict`).  Non-integer numeric literals are carried
verbatim in `jnum` (Python re-formats floats on dump; no verified claim
exercises a non-integer number). -/
inductive JVal where
  | jnull
  | jbool (b : Bool)
  | jint (n : Int)
  | jnum (raw : String)
  | jstr (s : String)
  | jarr (xs : JArr)
  | jobj (fs : JObj)
deriving Repr, DecidableEq
inductive JArr where
  | anil
  | acons (v : JVal) (tl : JArr)
deriving Repr, DecidableEq
inductive JObj where
  | onil
  | ocons (k : String) (v : JVal) (tl : JObj)
deriving Repr, DecidableEq
end

/-- Elements of a JSON array as a Lean list. -/
def JArr.toList : JArr → List JVal
  | .anil => []
  | .acons v tl => v :: tl.toList

/-- Fields of a JSON object as a Lean list of pairs. -/
def JObj.toList : JObj → List (String × JVal)
  | .onil => []
  | .ocons k v tl => (k, v) :: tl.toList

/-- Lookup in a JSON object (Python `dict.__getitem__` success case).
Keys produced by the embedded parser are unique, so the first hit is the
binding. -/
def JObj.lookup : JObj → String → Option JVal
  | .onil, _ => none
  | .ocons k v tl, key => if k = key then some v else tl.lookup key

/-- Python `dict` insertion: an existing key keeps its position and gets the
new value, a new key is appended at the end. -/
def JObj.insert : JObj → String → JVal → JObj
  | .onil, key, v => .ocons key v .onil
  | .ocons k w tl, key, v =>
      if k = key then .ocons k v tl else .ocons k w (tl.insert key v)

/-- Hexadecimal digit value, as accepted by JSON `\uXXXX` escapes. -/
def hexVal (c : Char) : Option Nat :=
  if '0' ≤ c && c ≤ '9' then some (c.toNat - 48)
  else if 'a' ≤ c && c ≤ 'f' then some (c.toNat - 87)
  else if 'A' ≤ c && c ≤ 'F' then some (c.toNat - 55)
  else none

/-- JSON (RFC) whitespace skipped by Python's `json` scanner. -/
def jsonWs (c : Char) : Bool := c = ' ' || c = '\t' || c = '\n' || c = '\r'

/-- Decode the body of a JSON string literal after the opening quote.
Returns the decoded characters and the input remaining after the closing
quote.  Python decodes surrogate pairs to one character; a lone surrogate
(which Lean's `Char` cannot hold) falls back to `Char.ofNat`'s default. -/
def jstrBody : Nat → List Char → Option (List Char × List Char)
  | 0, _ => none
  | _ + 1, [] => none
  | fuel + 1, c :: rest =>
      if c = '"' then some ([], rest)
      else if c = '\\' then
        match rest with
        | [] => none
        | e :: rest2 =>
            let simpleEsc : Option Char :=
              if e = '"' then some '"'
              else if e = '\\' then some '\\'
              else if e = '/' then some '/'
              else if e = 'b' then some '\x08'
              else if e = 'f' then some '\x0c'
              else if e = 'n' then some '\n'
              else if e = 'r' then some '\r'
              else if e = 't' then some '\t'
              else none
            match simpleEsc with
            | some d =>
                match jstrBody fuel rest2 with
                | some (cs, rem) => some (d :: cs, rem)
                | none => none
            | none =>
                if e = 'u' then
                  match rest2 with
                  | h1 :: h2 :: h3 :: h4 :: rest3 =>
                      match hexVal h1, hexVal h2, hexVal h3, hexVal h4 with
                      | some a, some b, some c1, some d1 =>
                          let n := ((a * 16 + b) * 16 + c1) * 16 + d1
                          if 0xD800 ≤ n && n ≤ 0xDBFF then
                            match rest3 with
                            | '\\' :: 'u' :: g1 :: g2 :: g3 :: g4 :: rest4 =>
                                match hexVal g1, hexVal g2, hexVal g3, hexVal g4 with
                                | some a2, some b2, some c2, some d2 =>
                                    let m := ((a2 * 16 + b2) * 16 + c2) * 16 + d2
                                    if 0xDC00 ≤ m && m ≤ 0xDFFF then
                                      let v := 0x10000 + (n - 0xD800) * 0x400 + (m - 0xDC00)
                                      match jstrBody fuel rest4 with
                                      | some (cs, rem) => some (Char.ofNat v :: cs, rem)
                                      | none => none
                                    else
                                      match jstrBody fuel rest3 with
                                      | some (cs, rem) => some (Char.ofNat n :: cs, rem)
                                      | none => none
                                | _, _, _, _ =>
                                    match jstrBody fuel rest3 with
                                    | some (cs, rem) => some (Char.ofNat n :: cs, rem)
                                    | none => none
                            | _ =>
                                match jstrBody fuel rest3 with
                                | some (cs, rem) => some (Char.ofNat n :: cs, rem)
                                | none => none
                          else
                            match jstrBody fuel rest3 with
                            | some (cs, rem) => some (Char.ofNat n :: cs, rem)
                            | none => none
                      | _, _, _, _ => none
                  | _ => none
                else none
      else if c.toNat < 32 then none
      else
        match jstrBody fuel rest with
        | some (cs, rem) => some (c :: cs, rem)
        | none => none

/-- Parse the digit run of a JSON number. -/
def jdigits : List Char → List Char × List Char
  | [] => ([], [])
  | c :: rest =>
      if c.isDigit then
        let (ds, rem) := jdigits rest
        (c :: ds, rem)
  else ([], c :: rest)

/-- Parse a JSON number per Python's `json` grammar
`-?(0|[1-9][0-9]*)(\.[0-9]+)?([eE][+-]?[0-9]+)?`; integers become `jint`,
anything with a fraction or exponent keeps its literal text as `jnum`. -/
def jnumber (cs : List Char) : Option (JVal × List Char) :=
  let (sign, cs1) : List Char × List Char :=
    match cs with
    | '-' :: tl => (['-'], tl)
    | _ => ([], cs)
  match cs1 with
  | [] => none
  | c :: tl =>
      if c = '0' then
        jnumberTail sign ['0'] tl
      else if c.isDigit then
        let (ds, rem) := jdigits tl
        jnumberTail sign (c :: ds) rem
      else none
where
  /-- Parse the optional fraction and exponent after the integer digits. -/
  jnumberTail (sign intDs : List Char) (cs : List Char) : Option (JVal × List Char) :=
    let (fracDs, cs2) : List Char × List Char :=
      match cs with
      | '.' :: tl =>
          match jdigits tl with
          | ([], _) => ([], cs)
          | (ds, rem) => ('.' :: ds, rem)
      | _ => ([], cs)
    let (expDs, cs3) : List Char × List Char :=
      match cs2 with
      | e :: tl =>
          if e = 'e' || e = 'E' then
            let (sg, tl2) : List Char × List Char :=
              match tl with
              | '+' :: tl2 => (['+'], tl2)
              | '-' :: tl2 => (['-'], tl2)
              | _ => ([], tl)
            match jdigits tl2 with
            | ([], _) => ([], cs2)
            | (ds, rem) => (e :: sg ++ ds, rem)
          else ([], cs2)
      | [] => ([], cs2)
    if fracDs.isEmpty && expDs.isEmpty then
      let mag : Nat := intDs.foldl (fun acc d => acc * 10 + (d.toNat - 48)) 0
      let v : Int := if sign.isEmpty then Int.ofNat mag else -(Int.ofNat mag)
      some (.jint v, cs3)
    else
      some (.jnum (String.mk (sign ++ intDs ++ fracDs ++ expDs)), cs3)

mutual
/-- Parse one JSON value (leading whitespace allowed), returning the value
and the remaining input.  Mirrors Python's `json.loads` grammar, including
the `NaN` / `Infinity` / `-Infinity` constants Python accepts by default. -/
def jparseV : Nat → List Char → Option (JVal × List Char)
  | 0, _ => none
  | fuel + 1, cs =>
      let cs := cs.dropWhile jsonWs
      match cs with
      | [] => none
      | c :: rest =>
          if c = lbrace then jparseObj fuel (rest.dropWhile jsonWs)
          else if c = '[' then jparseArr fuel (rest.dropWhile jsonWs)
          else if c = '"' then
            match jstrBody (rest.length + 1) rest with
            | some (body, rem) => some (.jstr (String.mk body), rem)
            | none => none
          else if listIsPref "true".data cs then some (.jbool true, cs.drop 4)
          else if listIsPref "false".data cs then some (.jbool false, cs.drop 5)
          else if listIsPref "null".data cs then some (.jnull, cs.drop 4)
          else if listIsPref "NaN".data cs then some (.jnum "NaN", cs.drop 3)
          else if listIsPref "Infinity".data cs then some (.jnum "Infinity", cs.drop 8)
          else if listIsPref "-Infinity".data cs then some (.jnum "-Infinity", cs.drop 9)
          else jnumber cs

/-- Parse the members of a JSON object after the opening brace (whitespace
already skipped). -/
def jparseObj : Nat → List Char → Option (JVal × List Char)
  | 0, _ => none
  | fuel + 1, cs =>
      match cs with
      | c :: rest =>
          if c = rbrace then some (.jobj .onil, rest)
          else jparseObjLoop fuel .onil cs
      | [] => none

/-- Parse `"key": value` pairs separated by commas, ending at a closing
brace.  A repeated key overwrites in place (Python `dict`). -/
def jparseObjLoop : Nat → JObj → List Char → Option (JVal × List Char)
  | 0, _, _ => none
  | fuel + 1, acc, cs =>
      match cs.dropWhile jsonWs with
      | '"' :: rest =>
          match jstrBody (rest.length + 1) rest with
          | some (keyCs, rem) =>
              match (rem.dropWhile jsonWs) with
              | ':' :: rem2 =>
                  match jparseV fuel rem2 with
                  | some (v, rem3) =>
                      let acc2 := acc.insert (String.mk keyCs) v
                      match rem3.dropWhile jsonWs with
                      | ',' :: rem4 => jparseObjLoop fuel acc2 rem4
                      | c :: rem4 =>
                          if c = rbrace then some (.jobj acc2, rem4) else none
                      | [] => none
                  | none => none
              | _ => none
          | none => none
      | _ => none

/-- Parse the items of a JSON array after the opening bracket (whitespace
already skipped). -/
def jparseArr : Nat → List Char → Option (JVal × List Char)
  | 0, _ => none
  | fuel + 1, cs =>
      match cs with
      | ']' :: rest => some (.jarr .anil, rest)
      | _ => jparseArrLoop fuel cs

/-- Parse comma-separated array items up to the closing bracket. -/
def jparseArrLoop : Nat → List Char → Option (JVal × List Char)
  | 0, _ => none
  | fuel + 1, cs =>
      match jparseV fuel cs with
      | some (v, rem) =>
          match rem.dropWhile jsonWs with
          | ',' :: rem2 =>
              match jparseArrLoop fuel rem2 with
              | some (.jarr tl, rem3) => some (.jarr (.acons v tl), rem3)
              | _ => none
          | ']' :: rem2 => some (.jarr (.acons v .anil), rem2)
          | _ => none
      | none => none
end

/-- Python `json.loads`: parse a complete document; trailing whitespace is
allowed, any other trailing input is an error (`none` models
`json.JSONDecodeError`). -/
def json_loads (s : String) : Option JVal :=
  match jparseV (s.data.length + 8) s.data with
  | some (v, rem) => if (rem.dropWhile jsonWs).isEmpty then some v else none
  | none => none

/-- Render `n` as four lowercase hexadecimal digits. -/
def hex4 (n : Nat) : String :=
  let d := fun (k : Nat) =>
    if k < 10 then Char.ofNat (48 + k) else Char.ofNat (87 + k)
  String.mk [d (n / 4096 % 16), d (n / 256 % 16), d (n / 16 % 16), d (n % 16)]

/-- Escape one character the way Python `json.dumps` (default
`ensure_ascii=True`) does. -/
def jescChar (c : Char) : String :=
  if c = '"' then "\\\""
  else if c = '\\' then "\\\\"
  else if c = '\n' then "\\n"
  else if c = '\t' then "\\t"
  else if c = '\r' then "\\r"
  else if c = '\x08' then "\\b"
  else if c = '\x0c' then "\\f"
  else if c.toNat < 32 then "\\u" ++ hex4 c.toNat
  else if c.toNat < 127 then String.singleton c
  else if c.toNat ≤ 0xFFFF then "\\u" ++ hex4 c.toNat
  else
    let v := c.toNat - 0x10000
    "\\u" ++ hex4 (0xD800 + v / 0x400) ++ "\\u" ++ hex4 (0xDC00 + v % 0x400)

/-- Escape a string body for `json.dumps`. -/
def jescape (s : String) : String := String.join (s.data.map jescChar)

mutual
/-- Python `json.dumps` with its default separators `", "` and `": "` and
`ensure_ascii=True`.  `jnum` literals are emitted verbatim (approximation:
Python would re-format non-integer floats). -/
def json_dumps : JVal → String
  | .jnull => "null"
  | .jbool true => "true"
  | .jbool false => "false"
  | .jint n => toString n
  | .jnum raw => raw
  | .jstr s => "\"" ++ jescape s ++ "\""
  | .jarr xs => "[" ++ jdumpsArr xs ++ "]"
  | .jobj fs => String.singleton lbrace ++ jdumpsObj fs ++ String.singleton rbrace

/-- Comma-separated rendering of array elements. -/
def jdumpsArr : JArr → String
  | .anil => ""
  | .acons v .anil => json_dumps v
  | .acons v tl => json_dumps v ++ ", " ++ jdumpsArr tl

/-- Comma-separated rendering of object fields. -/
def jdumpsObj : JObj → String
  | .onil => ""
  | .ocons k v .onil => "\"" ++ jescape k ++ "\": " ++ json_dumps v
  | .ocons k v tl => "\"" ++ jescape k ++ "\": " ++ json_dumps v ++ ", " ++ jdumpsObj tl
end

/-- Regular expressions covering the constructs used by the `re` patterns in
`src/fastmlx/utils.py`: character classes (subsuming literals and the dot),
concatenation, alternation, greedy and lazy repetition, numbered capture
groups and (optionally case-insensitive) backreferences. -/
inductive Reg where
  | eps : Reg
  | cls : (Char → Bool) → Reg
  | rseq2 : Reg → Reg → Reg
  | alt : Reg → Reg → Reg
  | star : Bool → Reg → Reg
  | group : Nat → Reg → Reg
  | backref : Nat → Bool → Reg

/-- Captured groups: group number paired with the captured characters. -/
abbrev Caps := List (Nat × List Char)

/-- Record a capture, overwriting any previous capture of the same group. -/
def capSet (caps : Caps) (n : Nat) (v : List Char) : Caps :=
  (n, v) :: (caps.filter (fun p => p.1 ≠ n))

/-- Look up a capture by group number. -/
def capGet (caps : Caps) (n : Nat) : Option (List Char) :=
  (caps.find? (fun p => p.1 = n)).map (·.2)

/-- Case-insensitive-capable prefix test used for backreferences. -/
def ciPrefix (ci : Bool) (pat s : List Char) : Bool :=
  match pat, s with
  | [], _ => true
  | _ :: _, [] => false
  | p :: ps, c :: cs =>
      (if ci then p.toLower = c.toLower else p = c) && ciPrefix ci ps cs

/-- Backtracking matcher in continuation style, mirroring Python `re`'s
leftmost, preference-ordered semantics: `k` receives the remaining input and
the captures of the first successful alternative.  Greedy `star true` tries
the longest extension first, lazy `star false` the shortest; repetition
iterates only while the body consumes input (the source's star bodies all
consume at least one character).  Fuel bounds the recursion depth. -/
def matchR : Nat → Reg → List Char → Caps → (List Char → Caps → Option (List Char × Caps)) →
    Option (List Char × Caps)
  | 0, _, _, _, _ => none
  | _ + 1, .eps, s, caps, k => k s caps
  | _ + 1, .cls f, s, caps, k =>
      match s with
      | [] => none
      | c :: cs => if f c then k cs caps else none
  | fuel + 1, .rseq2 a b, s, caps, k =>
      matchR fuel a s caps (fun s' caps' => matchR fuel b s' caps' k)
  | fuel + 1, .alt a b, s, caps, k =>
      match matchR fuel a s caps k with
      | some r => some r
      | none => matchR fuel b s caps k
  | fuel + 1, .star greedy r, s, caps, k =>
      let step := matchR fuel r s caps (fun s' caps' =>
        if s'.length < s.length then matchR fuel (.star greedy r) s' caps' k else none)
      if greedy then
        match step with
        | some res => some res
        | none => k s caps
      else
        match k s caps with
        | some res => some res
        | none => step
  | fuel + 1, .group n r, s, caps, k =>
      matchR fuel r s caps (fun s' caps' =>
        k s' (capSet caps' n (s.take (s.length - s'.length))))
  | fuel + 1, .backref n ci, s, caps, k =>
      match capGet caps n with
      | none => none
      | some v => if ciPrefix ci v s then matchR fuel .eps (s.drop v.length) caps k else none

/-- Fuel that exceeds the matcher's recursion depth on the source's
patterns (each star iteration consumes input and adds two levels). -/
def regFuel (s : List Char) : Nat := 8 * s.length + 64

/-- Match `r` anchored at the start of `s`; returns the number of characters
consumed and the captures. -/
def matchHere (r : Reg) (s : List Char) : Option (Nat × Caps) :=
  match matchR (regFuel s) r s [] (fun s' caps => some (s', caps)) with
  | none => none
  | some (rest, caps) => some (s.length - rest.length, caps)

/-- Python `re.search`: the match at the leftmost feasible start position;
returns (start, length, captures). -/
def research (r : Reg) (s : List Char) : Option (Nat × Nat × Caps) :=
  match s with
  | [] =>
      match matchHere r [] with
      | some (len, caps) => some (0, len, caps)
      | none => none
  | _ :: tl =>
      match matchHere r s with
      | some (len, caps) => some (0, len, caps)
      | none =>
          match research r tl with
          | some (st, len, caps) => some (st + 1, len, caps)
          | none => none

/-- Python `re.findall`: captures of all non-overlapping matches, scanning
left to right; an empty match advances the scan by one character. -/
def findallAux : Nat → Reg → List Char → List Caps
  | 0, _, _ => []
  | fuel + 1, r, s =>
      match research r s with
      | none => []
      | some (st, len, caps) => caps :: findallAux fuel r (s.drop (st + max len 1))

/-- Python `re.findall` over a string. -/
def findall (r : Reg) (s : String) : List Caps :=
  findallAux (s.data.length + 1) r s.data

/-- Python `re.sub(pattern, "", s)`: delete all non-overlapping matches. -/
def subAllAux : Nat → Reg → List Char → List Char
  | 0, _, s => s
  | fuel + 1, r, s =>
      match research r s with
      | none => s
      | some (st, len, _) =>
          if len = 0 then s.take (st + 1) ++ subAllAux fuel r (s.drop (st + 1))
          else s.take st ++ subAllAux fuel r (s.drop (st + len))

/-- Python `re.sub(pattern, "", s)` over a string. -/
def subAll (r : Reg) (s : String) : String :=
  String.mk (subAllAux (s.data.length + 1) r s.data)

/-- Literal character. -/
def lit (c : Char) : Reg := .cls (fun x => x = c)

/-- Case-insensitive literal character (patterns compiled with
`re.IGNORECASE`). -/
def litCI (c : Char) : Reg := .cls (fun x => x.toLower = c.toLower)

/-- Sequence of regular expressions. -/
def rseq : List Reg → Reg
  | [] => .eps
  | [r] => r
  | r :: rs => .rseq2 r (rseq rs)

/-- Literal string. -/
def litStr (s : String) : Reg := rseq (s.data.map lit)

/-- Case-insensitive literal string. -/
def litStrCI (s : String) : Reg := rseq (s.data.map litCI)

/-- The dot under `re.DOTALL`: any character. -/
def dotAll : Reg := .cls (fun _ => true)

/-- The dot without `re.DOTALL`: any character except a newline. -/
def dotNoNL : Reg := .cls (fun c => c ≠ '\n')

/-- Python `\w` (ASCII part: letters, digits, underscore). -/
def wordChar (c : Char) : Bool := c.isAlphanum || c = '_'

/-- Greedy `*`. -/
def gstar (r : Reg) : Reg := .star true r

/-- Lazy `*?`. -/
def lstar (r : Reg) : Reg := .star false r

/-- Greedy `+`. -/
def plus1 (r : Reg) : Reg := .rseq2 r (.star true r)

/-- Source pattern (utils.py:168/182, `re.DOTALL`):
the search and sub pattern for the embedded-JSON convention. -/
def reJsonToolCalls : Reg :=
  rseq [lit lbrace, gstar dotAll, litStr "\"tool_calls\":", gstar (.cls pySpace),
        lit '[', gstar dotAll, lit ']', gstar dotAll, lit rbrace]

/-- Source pattern (utils.py:193): the old tag form, group 1 the function
name, group 2 the brace-delimited argument text. -/
def reFunctionOld : Reg :=
  rseq [litStr "<function=", .group 1 (plus1 (.cls wordChar)), lit '>',
        gstar (.cls pySpace),
        .group 2 (rseq [lit lbrace, plus1 (.cls (fun c => c ≠ '<' && c ≠ '>')),
                        lit rbrace])]

/-- Source pattern (utils.py:206, `re.DOTALL | re.IGNORECASE`): one invoke
block, group 1 its body. -/
def reInvoke : Reg :=
  rseq [litStrCI "<invoke>", .group 1 (lstar dotAll), litStrCI "</invoke>"]

/-- Source pattern (utils.py:210, `re.IGNORECASE`, no DOTALL): the tool
name inside an invoke block. -/
def reToolName : Reg :=
  rseq [litStrCI "<tool_name>", .group 1 (lstar dotNoNL), litStrCI "</tool_name>"]

/-- Source pattern (utils.py:213, `re.IGNORECASE`, no DOTALL): one
`<tag>value</tag>` parameter, with a backreference on the tag name. -/
def reParam : Reg :=
  rseq [lit '<', .group 1 (plus1 (.cls wordChar)), lit '>',
        .group 2 (lstar dotNoNL), litStr "</", .backref 1 true, lit '>']

/-- Source pattern (utils.py:231, `re.DOTALL | re.IGNORECASE`): the block
removed from the output after tag-style extraction. -/
def reFunctionCallsBlock : Reg :=
  rseq [litStrCI "<function_calls>", gstar dotAll, litStrCI "</function_calls>"]

/-- Source pattern (utils.py:242, `re.DOTALL`): the functools span, group 1
its interior. -/
def reFunctoolsSearch : Reg :=
  rseq [litStr "functools[", .group 1 (lstar dotAll), lit ']']

/-- Source pattern (utils.py:256, `re.DOTALL`): the sub pattern deleting the
functools span. -/
def reFunctoolsSub : Reg :=
  rseq [litStr "functools[", lstar dotAll, lit ']']

/-- One part of a multipart message content, as read by the router
(`content_part.type`, `content_part.text`, `content_part.image_url["url"]`).
Parts with other `type` values are skipped by the source's loop. -/
structure ContentPart where
  type : String
  text : String
  image_url : String
deriving DecidableEq, Repr

/-- Message content: either a plain string or a multipart list, matching the
router's `isinstance(msg.content, str) / list` dispatch. -/
inductive MsgContent where
  | str (s : String)
  | parts (ps : List ContentPart)
deriving DecidableEq, Repr

/-- A chat message (types/chat/chat_completion.py `ChatMessage`). -/
structure ChatMessage where
  role : String
  content : MsgContent
deriving DecidableEq, Repr

/-- A caller-supplied tool declaration (types/chat/chat_completion.py
`Function`; renamed to avoid clashing with Lean's `Function` namespace).
Its JSON-schema `parameters` field is passed opaquely to the external
prompt template and is elided here. -/
structure ToolDecl where
  name : String
  description : String
deriving DecidableEq, Repr

/-- The chat-completion request body
(types/chat/chat_completion.py `ChatCompletionRequest`).  The numeric
`temperature` field is a float passed opaquely to the external generator and
is elided; `max_tokens` is likewise only forwarded. -/
structure ChatCompletionRequest where
  model : String
  messages : List ChatMessage
  image : Option String := none
  max_tokens : Nat := 100
  stream : Bool := false
  tools : Option (List ToolDecl) := none
  tool_choice : Option String := none
deriving DecidableEq, Repr

/-- A normalized function call (types/chat/chat_completion.py
`FunctionCall`): `arguments` is JSON text. -/
structure FunctionCall where
  name : String
  arguments : String
deriving DecidableEq, Repr

/-- A tool call produced by extraction (types/chat/chat_completion.py
`ToolCall`). -/
structure ToolCall where
  id : String
  type : String
  function : FunctionCall
deriving DecidableEq, Repr

/-- One choice of the response, flattening the source's nested
`{"index": _, "message": {"role": _, "content": _}, "finish_reason": _}`
dictionary. -/
structure Choice where
  index : Nat
  message_role : String
  message_content : String
  finish_reason : String
deriving DecidableEq, Repr

/-- The non-streaming response (types/chat/chat_completion.py
`ChatCompletionResponse`). -/
structure ChatCompletionResponse where
  id : String
  object : String
  created : Nat
  model : String
  choices : List Choice
  tool_calls : List ToolCall
deriving DecidableEq, Repr

/-- A pre-identifier tool call: function name and JSON-encoded arguments.
Fresh call ids (`os.urandom(4).hex()` in the source) are drawn from an
id supply when the response is assembled. -/
abbrev PreCall := String × String

/-- Python `value[key]` with a string key. -/
def pyGetItem (v : JVal) (key : String) : Except PyErr JVal :=
  match v with
  | .jobj fs =>
      match fs.lookup key with
      | some x => .ok x
      | none => .error (.keyError key)
  | .jstr _ => .error (.typeError "string indices must be integers")
  | .jarr _ => .error (.typeError "list indices must be integers")
  | _ => .error (.typeError "object is not subscriptable")

/-- Python `value.get(key, default)`: only dictionaries have `.get`. -/
def pyDictGet (v : JVal) (key : String) (dflt : JVal) : Except PyErr JVal :=
  match v with
  | .jobj fs => .ok ((fs.lookup key).getD dflt)
  | _ => .error (.attributeError "get")

/-- Python `for x in value`: lists yield their elements, strings their
characters (as one-character strings), dictionaries their keys; other JSON
values are not iterable. -/
def pyIterVals : JVal → Except PyErr (List JVal)
  | .jarr xs => .ok xs.toList
  | .jstr s => .ok (s.data.map (fun c => .jstr (String.singleton c)))
  | .jobj fs => .ok (fs.toList.map (fun p => .jstr p.1))
  | _ => .error (.typeError "object is not iterable")

/-- Pydantic validation of `FunctionCall.name`: the value must be a string
(pydantic v2 does not coerce). -/
def asPyStr (v : JVal) : Except PyErr String :=
  match v with
  | .jstr s => .ok s
  | _ => .error (.validationError "name: Input should be a valid string")

/-- Build one ToolCall's data from a decoded `tool_calls` entry, in the
source's evaluation order: `call["name"]`, then `call["arguments"]` (dumped
back to JSON text), then pydantic validation of the name.  Failures here are
NOT caught by the JSON branch's `except json.JSONDecodeError`. -/
def buildOneCall (call : JVal) : Except PyErr PreCall :=
  match pyGetItem call "name" with
  | .error e => .error e
  | .ok nameV =>
      match pyGetItem call "arguments" with
      | .error e => .error e
      | .ok argsV =>
          match asPyStr nameV with
          | .error e => .error e
          | .ok nameS => .ok (nameS, json_dumps argsV)

/-- The JSON branch's `for call in json_data.get("tool_calls", [])` loop
body, collecting appended calls; the first failure aborts the loop. -/
def buildCallsLoop : List JVal → Except PyErr (List PreCall)
  | [] => .ok []
  | c :: cs =>
      match buildOneCall c with
      | .error e => .error e
      | .ok pc =>
          match buildCallsLoop cs with
          | .error e => .error e
          | .ok rest => .ok (pc :: rest)

/-- The whole JSON-branch loop over the decoded match (utils.py:172-180). -/
def buildJsonCalls (jv : JVal) : Except PyErr (List PreCall) :=
  match pyDictGet jv "tool_calls" (.jarr .anil) with
  | .error e => .error e
  | .ok tc =>
      match pyIterVals tc with
      | .error e => .error e
      | .ok entries => buildCallsLoop entries

/-- Characterizes the decoded `tool_calls` entries on which the JSON branch
raises: an entry that is not an object carrying both a `name` and an
`arguments` field, or whose `name` is not a string. -/
def badToolEntry (v : JVal) : Bool :=
  match v with
  | .jobj fs =>
      match fs.lookup "name" with
      | none => true
      | some nv =>
          match fs.lookup "arguments" with
          | none => true
          | some _ =>
              match nv with
              | .jstr _ => false
              | _ => true
  | _ => true

/-- Whether the JSON branch raises on a decoded match: some `tool_calls`
entry is bad, or the `tool_calls` value cannot be iterated as entries
(non-empty strings and dictionaries iterate to bad entries; numbers,
booleans and null fail to iterate at all), or the decoded value is not an
object. -/
def hasBadToolEntry (jv : JVal) : Bool :=
  match jv with
  | .jobj fs =>
      match fs.lookup "tool_calls" with
      | none => false
      | some (.jarr xs) => xs.toList.any badToolEntry
      | some (.jstr s) => !s.data.isEmpty
      | some (.jobj gs) => !gs.toList.isEmpty
      | some _ => true
  | _ => true

/-- The substring of `output` matched by the JSON-convention search
(utils.py:168). -/
def jsonConventionMatch (output : String) : Option String :=
  match research reJsonToolCalls output.data with
  | none => none
  | some (st, len, _) => some (String.mk ((output.data.drop st).take len))

/-- The old tag form loop (utils.py:193-203): each match's argument text is
JSON-decoded; a decode failure raises, which the surrounding
`except Exception` catches — the calls appended so far survive.  Returns the
collected calls and whether an exception escaped the loop. -/
def oldFormatLoop : List (String × String) → List PreCall → List PreCall × Bool
  | [], acc => (acc, false)
  | (nm, argsStr) :: rest, acc =>
      match json_loads argsStr with
      | none => (acc, true)
      | some args => oldFormatLoop rest (acc ++ [(nm, json_dumps args)])

/-- Group pairs of `reFunctionOld` matches as (name, argument text). -/
def oldFormatMatches (output : String) : List (String × String) :=
  (findall reFunctionOld output).map (fun caps =>
    (String.mk ((capGet caps 1).getD []), String.mk ((capGet caps 2).getD [])))

/-- Arguments dictionary of one invoke block (utils.py:216-220): every
parameter tag other than `tool_name` becomes a lower-cased key with its raw
text value. -/
def invokeArgs (params : List (String × String)) : JObj :=
  params.foldl
    (fun acc p => if pyLower p.1 = "tool_name" then acc
                  else acc.insert (pyLower p.1) (.jstr p.2))
    .onil

/-- The new-format loop over invoke blocks (utils.py:209-228); it performs
no JSON decoding and cannot raise. -/
def invokeLoop (blocks : List String) : List PreCall :=
  blocks.foldl
    (fun acc block =>
      match research reToolName block.data with
      | none => acc
      | some (_, _, caps) =>
          let toolName := String.mk ((capGet caps 1).getD [])
          let params := (findall reParam block).map (fun pc =>
            (String.mk ((capGet pc 1).getD []), String.mk ((capGet pc 2).getD [])))
          acc ++ [(toolName, json_dumps (.jobj (invokeArgs params)))])
    []

/-- The tag-style branch (utils.py:190-238), entered when the lower-cased
output contains `<function_calls>`.  Its body is wrapped in
`except Exception`: a failure keeps the calls appended before it and leaves
the output unstripped. -/
def xmlBranchRun (output : String) : String × List PreCall :=
  match oldFormatLoop (oldFormatMatches output) [] with
  | (acc, true) => (output, acc)
  | (acc, false) =>
      let blocks := (findall reInvoke output).map (fun caps =>
        String.mk ((capGet caps 1).getD []))
      (pyStrip (subAll reFunctionCallsBlock output), acc ++ invokeLoop blocks)

/-- The functools branch's entry loop (utils.py:245-254), with the same
append-then-maybe-raise shape as the JSON branch but inside
`except Exception`. -/
def functoolsLoop : List JVal → List PreCall → List PreCall × Bool
  | [], acc => (acc, false)
  | c :: cs, acc =>
      match buildOneCall c with
      | .error _ => (acc, true)
      | .ok pc => functoolsLoop cs (acc ++ [pc])

/-- The functools branch (utils.py:240-260), entered when the output
contains `functools[`; wrapped in `except Exception`. -/
def functoolsBranchRun (output : String) : String × List PreCall :=
  match research reFunctoolsSearch output.data with
  | none => (output, [])
  | some (_, _, caps) =>
      let inner := String.mk ((capGet caps 1).getD [])
      match json_loads ("[" ++ inner ++ "]") with
      | none => (output, [])
      | some jv =>
          match pyIterVals jv with
          | .error _ => (output, [])
          | .ok entries =>
              match functoolsLoop entries [] with
              | (acc, true) => (output, acc)
              | (acc, false) => (pyStrip (subAll reFunctoolsSub output), acc)

/-- The extraction core of `handle_function_calls` (utils.py:164-260):
attempt the three conventions in their `if/elif` priority order and return
the cleaned output with the collected calls, or the Python exception that
escapes.  Only the JSON branch can raise: its `except` clause catches
`json.JSONDecodeError` alone, so `KeyError`/`TypeError`/`ValidationError`
from the entry loop propagate. -/
def extractToolCalls (output : String) : Except PyErr (String × List PreCall) :=
  match jsonConventionMatch output with
  | some m =>
      match json_loads m with
      | none => .ok (output, [])
      | some jv =>
          match buildJsonCalls jv with
          | .error e => .error e
          | .ok calls => .ok (pyStrip (subAll reJsonToolCalls output), calls)
  | none =>
      if strContains (pyLower output) "<function_calls>" then .ok (xmlBranchRun output)
      else if strContains output "functools[" then .ok (functoolsBranchRun output)
      else .ok (output, [])

/-- Assemble the response (utils.py:263-275).  `rand` supplies the
`os.urandom(4).hex()` id fragments in call order: one per appended tool
call, then one for the response id; `now` is `int(time.time())`. -/
def mkResponse (cleaned : String) (pcs : List PreCall)
    (request : ChatCompletionRequest) (rand : Nat → String) (now : Nat) :
    ChatCompletionResponse :=
  { id := "chatcmpl-" ++ rand pcs.length
    object := "chat.completion"
    created := now
    model := request.model
    choices := [{ index := 0, message_role := "assistant", message_content := cleaned,
                  finish_reason := if pcs.isEmpty then "stop" else "tool_call" }]
    tool_calls := pcs.enum.map (fun p =>
      { id := "call_" ++ rand p.1, type := "function",
        function := { name := p.2.1, arguments := p.2.2 } }) }

/-- Embedding of `handle_function_calls(output, request)` (utils.py:164-277)
with the id supply and clock made explicit. -/
def handle_function_calls (output : String) (request : ChatCompletionRequest)
    (rand : Nat → String) (now : Nat) : Except PyErr ChatCompletionResponse :=
  match extractToolCalls output with
  | .error e => .error e
  | .ok (cleaned, pcs) => .ok (mkResponse cleaned pcs request rand now)

/-- One choice of a streaming chunk, flattening the source's
`{"index": 0, "delta": {"role": _, "content": _}, "finish_reason": _}`
dictionary. -/
structure ChunkChoice where
  index : Nat
  delta_role : String
  delta_content : String
  finish_reason : Option String
deriving DecidableEq, Repr

/-- A streaming chunk (types/chat/chat_completion.py
`ChatCompletionChunk`). -/
structure ChatCompletionChunk where
  id : String
  object : String
  created : Nat
  model : String
  choices : List ChunkChoice
deriving DecidableEq, Repr

/-- One server-sent event of a stream: either a structured chunk (wired as
`data: <json>\n\n`) or the terminal `data: [DONE]\n\n` sentinel. -/
inductive SSEvent where
  | chunk (c : ChatCompletionChunk)
  | done
deriving DecidableEq, Repr

/-- Build one streaming chunk as both generators do (utils.py:316-327 and
utils.py:394-405): fresh id, current time, the model name, one choice with
role `assistant`, the fragment as content and a null finish_reason. -/
def mkChunk (modelName fragment idPart : String) (now : Nat) : ChatCompletionChunk :=
  { id := "chatcmpl-" ++ idPart
    object := "chat.completion.chunk"
    created := now
    model := modelName
    choices := [{ index := 0, delta_role := "assistant", delta_content := fragment,
                  finish_reason := none }] }

/-- Loop of `vlm_stream_generator` (utils.py:307-329): one chunk per
fragment produced by the external generator, then the sentinel. -/
def vlmStreamAux (modelName : String) (rand : Nat → String) (now : Nat) :
    Nat → List String → List SSEvent
  | _, [] => [.done]
  | n, t :: ts => .chunk (mkChunk modelName t (rand n) now) :: vlmStreamAux modelName rand now (n + 1) ts

/-- Embedding of `vlm_stream_generator` (utils.py:297-329): the fragment
sequence yielded by `mlx_vlm`'s `stream_generate` is the input list; the
model/processor/image/prompt and sampling parameters only feed that external
generator and are elided. -/
def vlm_stream_generator (modelName : String) (tokens : List String)
    (rand : Nat → String) (now : Nat) : List SSEvent :=
  vlmStreamAux modelName rand now 0 tokens

/-- The stop test of `lm_stream_generator` (utils.py:391):
`if stop_words and token in stop_words` where `stop_words` is the
`eom_token` entry of the tools configuration (a string or absent), so the
test is Python substring containment of the fragment in that string. -/
def stopHit (stop_words : Option String) (token : String) : Bool :=
  match stop_words with
  | none => false
  | some s => !s.data.isEmpty && strContains s token

/-- Loop of `lm_stream_generator` (utils.py:388-408): the loop breaks
before emitting a chunk whenever a fragment passes the stop test; the
sentinel is emitted in every case. -/
def lmStreamAux (modelName : String) (stop_words : Option String)
    (rand : Nat → String) (now : Nat) : Nat → List String → List SSEvent
  | _, [] => [.done]
  | n, t :: ts =>
      if stopHit stop_words t then [.done]
      else .chunk (mkChunk modelName t (rand n) now) :: lmStreamAux modelName stop_words rand now (n + 1) ts

/-- Embedding of `lm_stream_generator` (utils.py:383-408). -/
def lm_stream_generator (modelName : String) (tokens : List String)
    (stop_words : Option String) (rand : Nat → String) (now : Nat) : List SSEvent :=
  lmStreamAux modelName stop_words rand now 0 tokens

/-- State of the `ModelProvider` cache (fastmlx.py:52-77).  A loaded model
bundle is opaque to the cache; each load is represented by a fresh handle
token drawn from `nextHandle`, so handle equality is Python reference
equality.  `loadCount` instruments the number of load operations
performed. -/
structure CacheState where
  models : List (String × Nat)
  nextHandle : Nat
  loadCount : Nat
deriving DecidableEq, Repr

/-- Python `model_name in self.models` / `self.models[model_name]`. -/
def cacheLookup (st : CacheState) (name : String) : Option Nat :=
  (st.models.find? (fun p => p.1 = name)).map (·.2)

/-- Embedding of `ModelProvider.load_model` (fastmlx.py:57-66): on a miss,
load the model (vlm or lm — opaque here) and insert it under the name; on a
hit, return the cached bundle.  The method contains no `await`, so on the
single asyncio event loop each call runs atomically; a concurrent schedule
of calls is therefore some sequential order of these steps. -/
def load_model (name : String) (st : CacheState) : Nat × CacheState :=
  match cacheLookup st name with
  | some h => (h, st)
  | none =>
      (st.nextHandle,
       { models := st.models ++ [(name, st.nextHandle)],
         nextHandle := st.nextHandle + 1,
         loadCount := st.loadCount + 1 })

/-- Embedding of `ModelProvider.remove_model` (fastmlx.py:68-73): delete
under the provider lock and report whether the name was present. -/
def remove_model (name : String) (st : CacheState) : Bool × CacheState :=
  if (cacheLookup st name).isSome then
    (true, { st with models := st.models.filter (fun p => p.1 ≠ name) })
  else (false, st)

/-- Embedding of `ModelProvider.get_available_models` (fastmlx.py:75-77):
the list of cached model names. -/
def get_available_models (st : CacheState) : List String :=
  st.models.map (·.1)

/-- Execute `n` back-to-back `load_model` calls for the same name: the
sequential order that any concurrent schedule of the atomic calls
produces.  Returns the handles in call order and the final state. -/
def runLoads : Nat → String → CacheState → List Nat × CacheState
  | 0, _, st => ([], st)
  | n + 1, name, st =>
      let (h, st1) := load_model name st
      let (hs, st2) := runLoads n name st1
      (h :: hs, st2)

/-- The static model-type remapping table (utils.py:64). -/
def MODEL_REMAPPING : List (String × String) :=
  [("llava-qwen2", "llava_bunny"), ("bunny-llama", "llava_bunny")]

/-- Python `MODEL_REMAPPING.get(t, t)` (fastmlx.py:60 and fastmlx.py:139). -/
def remapModelType (t : String) : String :=
  ((MODEL_REMAPPING.find? (fun p => p.1 = t)).map (·.2)).getD t

/-- The tokenizer as the router sees it: whether `chat_template` is set,
whether `apply_chat_template` exists, and the two opaque template
renderings (the firefunction variant also receives the dumped tool list and
the timestamp; both are folded into the opaque function). -/
structure Tokenizer where
  chat_template : Bool
  has_apply : Bool
  apply : List (String × MsgContent) → String
  applyFF : List (String × MsgContent) → List ToolDecl → String

/-- The loaded bundle for one model as the router reads it: the two
`model_type` strings it branches on and the tokenizer; the weights,
processor and image processor are only handed to the external generator. -/
structure ModelData where
  configModelType : String
  modelConfigType : String
  tokenizer : Tokenizer

/-- External collaborators of the router: the provider's loaded bundles,
the filesystem-derived `MODELS["vlm"]` capability list, the tools
configuration (`get_eom_token`, `get_tool_prompt`), the chat-template
renderers and the generators. -/
structure Env where
  loadModelData : String → ModelData
  modelsVlm : List String
  getEomToken : String → Option String
  applyVlmChatTemplate : List (String × String) → String
  vlmGenerate : String → Option String → String → String
  getToolPrompt : String → List ToolDecl → MsgContent → String × Bool
  lmGenerateText : String → MsgContent → Option String → String

/-- Outcome of a successful `chat_completion` call.  `streaming` stands for
a returned `StreamingResponse`; in this source snapshot neither streaming
branch is reachable (both evaluate the non-existent field
`request.stream_options` first). -/
inductive RouteOutcome where
  | streaming
  | response (r : ChatCompletionResponse)
deriving DecidableEq, Repr

/-- Result of the route handler together with the number of generator
invocations it performed. -/
abbrev RouterOut := Except PyErr RouteOutcome × Nat

/-- Flatten the parts of one multipart message (fastmlx.py:152-161):
concatenate the text parts with trailing blanks and record the last
image reference seen. -/
def flattenParts : List ContentPart → String → Option String → String × Option String
  | [], txt, img => (txt, img)
  | p :: ps, txt, img =>
      if p.type = "text" then flattenParts ps (txt ++ p.text ++ " ") img
      else if p.type = "image_url" then flattenParts ps txt (some p.image_url)
      else flattenParts ps txt img

/-- The router's message-flattening loop (fastmlx.py:146-161): build
role/plain-text pairs and capture the last image reference across the whole
message list. -/
def flattenMsgs : List ChatMessage → Option String → Option String × List (String × String)
  | [], img => (img, [])
  | m :: ms, img =>
      match m.content with
      | .str s =>
          let (img2, rest) := flattenMsgs ms img
          (img2, (m.role, s) :: rest)
      | .parts ps =>
          let (txt, img1) := flattenParts ps "" img
          let (img2, rest) := flattenMsgs ms img1
          (img2, (m.role, pyStrip txt) :: rest)

/-- Python truthiness of the captured image reference:
`not image_url` is true for `None` and for the empty string. -/
def imageFalsy : Option String → Bool
  | none => true
  | some s => s.data.isEmpty

/-- Python truthiness of `request.tools`. -/
def toolsTruthy : Option (List ToolDecl) → Bool
  | none => false
  | some ts => !ts.isEmpty

/-- Replace the content of the last message
(`request.messages[-1].content = prompt`, fastmlx.py:217). -/
def setLastContent : List ChatMessage → MsgContent → List ChatMessage
  | [], _ => []
  | [m], c => [{ m with content := c }]
  | m :: ms, c => m :: setLastContent ms c

/-- Embedding of `apply_lm_chat_template` (utils.py:138-161).  When the
tokenizer has no chat template the source returns
`request.messages[-1].content`, which raises IndexError on an empty message
list; the firefunction branch iterates `request.tools`, which raises
TypeError when `tools` is None. -/
def apply_lm_chat_template (tok : Tokenizer) (chat_messages : List (String × MsgContent))
    (request : ChatCompletionRequest) : Except PyErr MsgContent :=
  if tok.chat_template && tok.has_apply then
    if strContains request.model "firefunction-v2" then
      match request.tools with
      | none => .error (.typeError "NoneType object is not iterable")
      | some ts => .ok (.str (tok.applyFF chat_messages ts))
    else .ok (.str (tok.apply chat_messages))
  else
    match request.messages.getLast? with
    | none => .error (.indexError "list index out of range")
    | some m => .ok m.content

/-- Python unpacking `output, token_length_info = lm_generate(...)`
(fastmlx.py:246).  `lm_generate` (utils.py:332-380) returns the single
string `detokenizer.text`, so the unpack succeeds only for a two-character
string (iterating a string yields its characters) and raises ValueError
otherwise. -/
def pyUnpack2 (s : String) : Except PyErr (String × String) :=
  match s.data with
  | [a, b] => .ok (String.singleton a, String.singleton b)
  | [] => .error (.valueError "not enough values to unpack (expected 2, got 0)")
  | [_] => .error (.valueError "not enough values to unpack (expected 2, got 1)")
  | _ => .error (.valueError "too many values to unpack (expected 2)")

/-- The call `handle_function_calls(output, request, token_length_info)`
(fastmlx.py:256): the callee (utils.py:164) is defined with two parameters,
so Python raises TypeError at the call, before the body runs. -/
def handle_function_calls_call3 (output : String) (request : ChatCompletionRequest)
    (tli : String) : Except PyErr ChatCompletionResponse :=
  .error (.typeError "handle_function_calls() takes 2 positional arguments but 3 were given")

/-- The tools preprocessing block of the text-only path (fastmlx.py:204-222):
when tools are present, the model is not on the firefunction deny-list and
the first message is not a system message, render the tool prompt and either
replace the last message's content or prepend a system message.  Reading
`request.messages[-1]` raises IndexError on an empty list. -/
def lmToolsBlock (env : Env) (request : ChatCompletionRequest) :
    Except PyErr (List ChatMessage) :=
  if toolsTruthy request.tools && !strContains request.model "firefunction-v2" then
    if (match request.messages with
        | m :: _ => decide (m.role = "system")
        | [] => false) then
      .ok request.messages
    else
      match request.messages.getLast? with
      | none => .error (.indexError "list index out of range")
      | some lastMsg =>
          let pr := env.getToolPrompt request.model (request.tools.getD []) lastMsg.content
          if pr.2 then .ok (setLastContent request.messages (.str pr.1))
          else .ok ({ role := "system", content := .str pr.1 } :: request.messages)
  else .ok request.messages

/-- Embedding of the `chat_completion` route handler (fastmlx.py:119-256)
with `MLX_AVAILABLE = True`.  The second component counts generator
invocations.  Both streaming branches evaluate `request.stream_options`,
a field `ChatCompletionRequest` does not declare, so they raise
AttributeError before constructing the stream; the VLM non-streaming tail
reads the never-assigned local `token_length_info` and the LM non-streaming
tail unpacks `lm_generate`'s single string and then calls
`handle_function_calls` with three arguments. -/
def chat_completion (env : Env) (request : ChatCompletionRequest) : RouterOut :=
  let md := env.loadModelData request.model
  let model_type := remapModelType md.configModelType
  let stop_words := env.getEomToken request.model
  if model_type ∈ env.modelsVlm then
    let fl := flattenMsgs request.messages none
    let image_url := fl.1
    let chat_messages := fl.2
    if imageFalsy image_url && decide (model_type ∈ env.modelsVlm) then
      (.error (.httpException 400 "Image URL not provided for VLM model"), 0)
    else
      let promptE : Except PyErr String :=
        if md.modelConfigType ≠ "paligemma" then
          .ok (env.applyVlmChatTemplate chat_messages)
        else
          match chat_messages.getLast? with
          | none => .error (.indexError "list index out of range")
          | some p => .ok p.2
      match promptE with
      | .error e => (.error e, 0)
      | .ok prompt =>
          if request.stream then
            (.error (.attributeError "stream_options"), 0)
          else
            let _output := env.vlmGenerate request.model image_url prompt
            (.error (.unboundLocal "token_length_info"), 1)
  else
    match lmToolsBlock env request with
    | .error e => (.error e, 0)
    | .ok msgs1 =>
        let request1 := { request with messages := msgs1 }
        let tokenizer := (env.loadModelData request.model).tokenizer
        let chat_messages := msgs1.map (fun m => (m.role, m.content))
        match apply_lm_chat_template tokenizer chat_messages request1 with
        | .error e => (.error e, 0)
        | .ok prompt =>
            if request.stream then
              (.error (.attributeError "stream_options"), 0)
            else
              let text := env.lmGenerateText request.model prompt stop_words
              match pyUnpack2 text with
              | .error e => (.error e, 1)
              | .ok p =>
                  ((handle_function_calls_call3 p.1 request1 p.2).map .response, 1)

/-- Whether the message list yields no image reference anywhere: every
message is plain text or has no `image_url` part. -/
def noImageRef (msgs : List ChatMessage) : Bool :=
  msgs.all (fun m =>
    match m.content with
    | .str _ => true
    | .parts ps => ps.all (fun p => p.type ≠ "image_url"))

/-- Deterministic id supply used for concrete evaluations. -/
def rand0 : Nat → String := fun k => toString k

/-- Minimal request used when exercising the extractor as a unit. -/
def reqEx : ChatCompletionRequest := { model := "m", messages := [] }

/-- The input of the spec's JSON-form extraction round-trip property. -/
def c7in : String :=
  "The answer.\n\x7b\"tool_calls\":[\x7b\"name\":\"get_weather\",\"arguments\":\x7b\"city\":\"Paris\"\x7d\x7d]\x7d"

/-- A tag-form input: an old-style `<function=...>` marker inside a
`<function_calls>` block (the branch is entered only when the lower-cased
output contains `<function_calls>`). -/
def c8in : String := "<function_calls>\n<function=lookup>\x7b\"q\": \"x\"\x7d\n</function_calls>"

/-- A tokenizer with a chat template, for concrete router runs. -/
def tokTmpl : Tokenizer :=
  { chat_template := true, has_apply := true,
    apply := fun _ => "PROMPT", applyFF := fun _ _ => "FFPROMPT" }

/-- A tokenizer without a chat template. -/
def tokNoTmpl : Tokenizer :=
  { chat_template := false, has_apply := true,
    apply := fun _ => "PROMPT", applyFF := fun _ _ => "FFPROMPT" }

/-- A loaded text-only model bundle. -/
def mdLM : ModelData :=
  { configModelType := "llama", modelConfigType := "llama", tokenizer := tokTmpl }

/-- A loaded text-only model bundle whose tokenizer has no chat template. -/
def mdLMNoTmpl : ModelData :=
  { configModelType := "llama", modelConfigType := "llama", tokenizer := tokNoTmpl }

/-- A loaded multimodal model bundle. -/
def mdVLM : ModelData :=
  { configModelType := "llava", modelConfigType := "llava", tokenizer := tokTmpl }

/-- A concrete environment resolving every model id to the multimodal
bundle. -/
def envVlm : Env :=
  { loadModelData := fun _ => mdVLM, modelsVlm := ["llava"],
    getEomToken := fun _ => none,
    applyVlmChatTemplate := fun _ => "VPROMPT",
    vlmGenerate := fun _ _ _ => "OUT",
    getToolPrompt := fun _ _ _ => ("TP", false),
    lmGenerateText := fun _ _ _ => "generated response" }

/-- A concrete environment resolving every model id to the text-only
bundle. -/
def envLM : Env :=
  { loadModelData := fun _ => mdLM, modelsVlm := ["llava"],
    getEomToken := fun _ => none,
    applyVlmChatTemplate := fun _ => "VPROMPT",
    vlmGenerate := fun _ _ _ => "OUT",
    getToolPrompt := fun _ _ _ => ("TP", false),
    lmGenerateText := fun _ _ _ => "generated response" }

/-- Like `envLM` but the tokenizer has no chat template. -/
def envLMNoTmpl : Env :=
  { loadModelData := fun _ => mdLMNoTmpl, modelsVlm := ["llava"],
    getEomToken := fun _ => none,
    applyVlmChatTemplate := fun _ => "VPROMPT",
    vlmGenerate := fun _ _ _ => "OUT",
    getToolPrompt := fun _ _ _ => ("TP", false),
    lmGenerateText := fun _ _ _ => "generated response" }

/-- A multimodal request whose messages carry no image reference. -/
def reqVlmNoImg : ChatCompletionRequest :=
  { model := "llava-model",
    messages := [{ role := "user", content := .str "Describe" },
                 { role := "user", content := .parts [{ type := "text", text := "this", image_url := "" }] }] }

/-- A text-only request with an empty message list. -/
def reqEmptyLm : ChatCompletionRequest := { model := "phi", messages := [] }

/-- A well-formed text-only non-streaming request. -/
def reqLm : ChatCompletionRequest :=
  { model := "phi", messages := [{ role := "user", content := .str "Hello" }] }

/-- Helper: a `find?` miss on the left of an append defers to the right. -/
theorem find_append_left_none {α : Type} (p : α → Bool) (l₁ l₂ : List α)
    (h : l₁.find? p = none) : (l₁ ++ l₂).find? p = l₂.find? p := by
  rw [List.find?_append, h, Option.none_or]

/-- Helper: a cache hit leaves `load_model` without effect, so a run of `n`
calls on a cached name returns the cached handle `n` times and keeps the
state. -/
theorem runLoads_cached (n : Nat) (name : String) (st : CacheState) (h : Nat)
    (hc : cacheLookup st name = some h) :
    runLoads n name st = (List.replicate n h, st) := by
  induction n with
  | zero => simp [runLoads]
  | succ m ih =>
      simp only [runLoads, load_model, hc]
      rw [ih]
      simp [List.replicate_succ]

/-- Helper: after a miss-triggered load, the name is cached under the fresh
handle. -/
theorem cacheLookup_after_load (name : String) (st : CacheState)
    (hc : cacheLookup st name = none) :
    cacheLookup { models := st.models ++ [(name, st.nextHandle)],
                  nextHandle := st.nextHandle + 1,
                  loadCount := st.loadCount + 1 }
      name = some st.nextHandle := by
  have h1 : st.models.find? (fun p => p.1 = name) = none := by
    unfold cacheLookup at hc
    cases hf : st.models.find? (fun p => p.1 = name) with
    | none => rfl
    | some q => rw [hf] at hc; simp at hc
  unfold cacheLookup
  simp only [find_append_left_none _ _ _ h1, List.find?]
  simp

/-- C1.  Cache idempotence: the `load_model` body (fastmlx.py:57-66)
contains no `await`, so on the asyncio event loop each call is one atomic
step and any concurrent schedule of N `get_or_load(id)` calls for the same
uncached id executes as N back-to-back calls.  Such a run performs exactly
one load operation and hands every caller the same handle (handle tokens
model Python object identity, so equal tokens are reference-equal
bundles). -/
theorem cache_concurrent_load_once (n : Nat) (name : String) (st : CacheState)
    (huncached : cacheLookup st name = none) (hn : 1 ≤ n) :
    (runLoads n name st).1 = List.replicate n st.nextHandle ∧
    (runLoads n name st).2.loadCount = st.loadCount + 1 := by
  cases n with
  | zero => omega
  | succ m =>
      simp only [runLoads, load_model, huncached]
      rw [runLoads_cached m name _ st.nextHandle (cacheLookup_after_load name st huncached)]
      simp [List.replicate_succ]

/-- C1 witness: three concurrent loads of an uncached id perform one load
and all receive handle 0. -/
theorem cache_concurrent_load_once_witness :
    (runLoads 3 "mlx-community/some-model" ⟨[], 0, 0⟩).1 = List.replicate 3 0 ∧
    (runLoads 3 "mlx-community/some-model" ⟨[], 0, 0⟩).2.loadCount = 0 + 1 :=
  cache_concurrent_load_once 3 "mlx-community/some-model" ⟨[], 0, 0⟩ (by decide) (by decide)

/-- C6.  Cache removal (fastmlx.py:68-77): after `remove_model` returns
true the id is absent from `get_available_models`, and removing an absent
id returns false without raising (the embedded operation is total) and
leaves the state unchanged. -/
theorem remove_model_semantics (st : CacheState) (name : String) :
    ((remove_model name st).1 = true → name ∉ get_available_models (remove_model name st).2) ∧
    (name ∉ get_available_models st → remove_model name st = (false, st)) := by
  constructor
  · intro _ hmem
    unfold remove_model at hmem
    by_cases hc : (cacheLookup st name).isSome
    · rw [if_pos hc] at hmem
      simp only [get_available_models, List.mem_map, List.mem_filter] at hmem
      obtain ⟨p, ⟨_, hp⟩, hpn⟩ := hmem
      simp [hpn] at hp
    · rw [if_neg hc] at hmem
      unfold get_available_models at hmem
      simp only [List.mem_map] at hmem
      obtain ⟨p, hp, hpn⟩ := hmem
      apply hc
      unfold cacheLookup
      cases hf : st.models.find? (fun q => q.1 = name) with
      | some q => simp
      | none =>
          exfalso
          have := List.find?_eq_none.mp hf p hp
          simp [hpn] at this
  · intro hmem
    unfold remove_model
    have hc : cacheLookup st name = none := by
      unfold cacheLookup
      cases hf : st.models.find? (fun q => q.1 = name) with
      | none => rfl
      | some q =>
          exfalso
          apply hmem
          unfold get_available_models
          have hq : q ∈ st.models := List.mem_of_find?_eq_some hf
          have hqn : q.1 = name := by
            have := List.find?_some hf
            simpa using this
          exact hqn ▸ List.mem_map_of_mem (·.1) hq
    rw [hc]
    simp

/-- C6 witness: removing the absent id `b` from a cache holding only `a`
returns false and leaves the cache unchanged. -/
theorem remove_model_semantics_witness :
    remove_model "b" ⟨[("a", 0)], 1, 1⟩ = (false, ⟨[("a", 0)], 1, 1⟩) :=
  (remove_model_semantics ⟨[("a", 0)], 1, 1⟩ "b").2 (by decide)

/-- C7.  Extraction round-trip of the JSON convention on the spec's
concrete input: cleaned text `The answer.`, exactly one tool call named
`get_weather` with the re-encoded JSON argument text, and finish_reason
`tool_call`. -/
theorem json_extraction_roundtrip :
    handle_function_calls c7in reqEx rand0 0 =
      .ok { id := "chatcmpl-1", object := "chat.completion", created := 0, model := "m",
            choices := [{ index := 0, message_role := "assistant",
                          message_content := "The answer.", finish_reason := "tool_call" }],
            tool_calls := [{ id := "call_0", type := "function",
                             function := { name := "get_weather",
                                           arguments := "\x7b\"city\": \"Paris\"\x7d" } }] } := by
  decide

/-- C8.  Extraction of the old tag form: the input carrying
`<function=lookup>` with argument text `\x7b"q": "x"\x7d` yields exactly
one tool call named `lookup` with the re-encoded JSON argument text, and
the matched block is stripped from the output. -/
theorem tag_extraction_roundtrip :
    handle_function_calls c8in reqEx rand0 0 =
      .ok { id := "chatcmpl-1", object := "chat.completion", created := 0, model := "m",
            choices := [{ index := 0, message_role := "assistant",
                          message_content := "", finish_reason := "tool_call" }],
            tool_calls := [{ id := "call_0", type := "function",
                             function := { name := "lookup",
                                           arguments := "\x7b\"q\": \"x\"\x7d" } }] } := by
  decide

/-- C2 counterexample: on `\x7b"tool_calls": [\x7b\x7d]\x7d` the JSON
convention matches and decodes, but the entry has no `name` field; the
branch's `except json.JSONDecodeError` does not catch the resulting
KeyError, so the extractor raises and response construction aborts —
contradicting the claim that it never raises and degrades to the original
text. -/
theorem extractor_raises_keyerror_counterexample :
    handle_function_calls "\x7b\"tool_calls\": [\x7b\x7d]\x7d" reqEx rand0 0 =
      .error (.keyError "name") := by
  decide

/-- Helper: building one call succeeds exactly on entries that are objects
with a string `name` and an `arguments` field. -/
theorem buildOneCall_isOk (c : JVal) : (buildOneCall c).isOk = !badToolEntry c := by
  unfold buildOneCall badToolEntry pyGetItem asPyStr
  cases c with
  | jobj fs =>
      cases hn : fs.lookup "name" with
      | none => simp [hn, Except.isOk, Except.toBool]
      | some nv =>
          cases ha : fs.lookup "arguments" with
          | none => cases nv <;> simp [hn, ha, Except.isOk, Except.toBool]
          | some av => cases nv <;> simp [hn, ha, Except.isOk, Except.toBool]
  | jnull => simp [Except.isOk, Except.toBool]
  | jbool b => simp [Except.isOk, Except.toBool]
  | jint n => simp [Except.isOk, Except.toBool]
  | jnum raw => simp [Except.isOk, Except.toBool]
  | jstr s => simp [Except.isOk, Except.toBool]
  | jarr xs => simp [Except.isOk, Except.toBool]

/-- Helper: the JSON-branch entry loop succeeds exactly when no entry is
bad. -/
theorem buildCallsLoop_isOk (l : List JVal) :
    (buildCallsLoop l).isOk = !(l.any badToolEntry) := by
  induction l with
  | nil => rfl
  | cons c cs ih =>
      simp only [buildCallsLoop, List.any_cons]
      cases hq : buildOneCall c with
      | error e =>
          have h1 := buildOneCall_isOk c
          rw [hq] at h1
          simp only [Except.isOk, Except.toBool] at h1
          have hb : badToolEntry c = true := by
            cases hb : badToolEntry c
            · rw [hb] at h1; simp at h1
            · rfl
          simp [hq, hb, Except.isOk, Except.toBool]
      | ok pc =>
          have h1 := buildOneCall_isOk c
          rw [hq] at h1
          simp only [Except.isOk, Except.toBool] at h1
          have hb : badToolEntry c = false := by
            cases hb : badToolEntry c
            · rfl
            · rw [hb] at h1; simp at h1
          cases hr : buildCallsLoop cs with
          | error e =>
              rw [hr] at ih
              simp only [Except.isOk, Except.toBool] at ih
              simp [hq, hr, hb, Except.isOk, Except.toBool, ← ih]
          | ok rest =>
              rw [hr] at ih
              simp only [Except.isOk, Except.toBool] at ih
              simp [hq, hr, hb, Except.isOk, Except.toBool, ← ih]

/-- Helper: a list of elements on which a predicate is constantly true has
a member exactly when it is non-empty. -/
theorem any_const_true {α : Type} (l : List α) (p : α → Bool)
    (h : ∀ a ∈ l, p a = true) : l.any p = !l.isEmpty := by
  cases l with
  | nil => simp
  | cons a tl => simp [h a (by simp)]

/-- Helper: the whole JSON branch raises exactly on the decoded values
described by `hasBadToolEntry`. -/
theorem buildJsonCalls_isOk (jv : JVal) :
    (buildJsonCalls jv).isOk = !hasBadToolEntry jv := by
  unfold buildJsonCalls hasBadToolEntry pyDictGet pyIterVals
  cases jv with
  | jobj fs =>
      cases h : fs.lookup "tool_calls" with
      | none => simp [h, Option.getD, buildCallsLoop, JArr.toList, Except.isOk, Except.toBool]
      | some tc =>
          cases tc with
          | jarr xs => simpa [h, Option.getD] using buildCallsLoop_isOk xs.toList
          | jstr s =>
              simp only [h, Option.getD]
              rw [buildCallsLoop_isOk]
              rw [any_const_true _ _ (by
                    intro a ha
                    simp only [List.mem_map] at ha
                    obtain ⟨c, _, rfl⟩ := ha
                    rfl)]
              cases s.data <;> rfl
          | jobj gs =>
              simp only [h, Option.getD]
              rw [buildCallsLoop_isOk]
              rw [any_const_true _ _ (by
                    intro a ha
                    simp only [List.mem_map] at ha
                    obtain ⟨c, _, rfl⟩ := ha
                    rfl)]
              cases gs.toList <;> rfl
          | jnull => simp [h, Option.getD, Except.isOk, Except.toBool]
          | jbool b => simp [h, Option.getD, Except.isOk, Except.toBool]
          | jint n => simp [h, Option.getD, Except.isOk, Except.toBool]
          | jnum raw => simp [h, Option.getD, Except.isOk, Except.toBool]
  | jnull => simp [Except.isOk, Except.toBool]
  | jbool b => simp [Except.isOk, Except.toBool]
  | jint n => simp [Except.isOk, Except.toBool]
  | jnum raw => simp [Except.isOk, Except.toBool]
  | jstr s => simp [Except.isOk, Except.toBool]
  | jarr xs => simp [Except.isOk, Except.toBool]

/-- Helper: whether extraction succeeds depends only on the JSON
convention: a match that decodes must have good `tool_calls` entries; every
other path returns a result. -/
theorem extract_isOk_eq (output : String) :
    (extractToolCalls output).isOk =
      (match jsonConventionMatch output with
       | some m =>
           match json_loads m with
           | some jv => !hasBadToolEntry jv
           | none => true
       | none => true) := by
  unfold extractToolCalls
  cases hm : jsonConventionMatch output with
  | none =>
      simp only [hm]
      split
      · simp [Except.isOk, Except.toBool]
      · split <;> simp [Except.isOk, Except.toBool]
  | some m =>
      simp only [hm]
      cases hl : json_loads m with
      | none => simp [hl, Except.isOk, Except.toBool]
      | some jv =>
          simp only [hl]
          rw [← buildJsonCalls_isOk jv]
          cases buildJsonCalls jv <;> rfl

/-- C2 amended.  The extractor aborts response construction exactly when
the JSON convention matches, the match decodes, and the decoded value has a
bad `tool_calls` entry (not an object with a string `name` and an
`arguments` field); every other parse failure — a JSON decode error, and
anything inside the tag-style or functools conventions — is caught and the
extractor returns a response. -/
theorem extractor_failure_characterization (output : String)
    (request : ChatCompletionRequest) (rand : Nat → String) (now : Nat) :
    (handle_function_calls output request rand now).isOk = false ↔
    ∃ m, jsonConventionMatch output = some m ∧
      ∃ jv, json_loads m = some jv ∧ hasBadToolEntry jv = true := by
  have hmain : (handle_function_calls output request rand now).isOk
      = (extractToolCalls output).isOk := by
    unfold handle_function_calls
    cases extractToolCalls output with
    | error e => rfl
    | ok p => rfl
  rw [hmain, extract_isOk_eq]
  cases hm : jsonConventionMatch output with
  | none => simp
  | some m =>
      cases hl : json_loads m with
      | none => simp [hl]
      | some jv =>
          cases hbad : hasBadToolEntry jv with
          | false => simp [hl, hbad]
          | true => simp [hl, hbad]

/-- C5.  In every response the extractor constructs, finish_reason is
`tool_call` exactly when the tool-call list is non-empty, and `stop`
otherwise (utils.py:271). -/
theorem finish_reason_iff_tool_calls (output : String)
    (request : ChatCompletionRequest) (rand : Nat → String) (now : Nat)
    (resp : ChatCompletionResponse)
    (h : handle_function_calls output request rand now = .ok resp) :
    ∃ c, resp.choices = [c] ∧
      (c.finish_reason = "tool_call" ↔ resp.tool_calls ≠ []) ∧
      (c.finish_reason = "tool_call" ∨ c.finish_reason = "stop") := by
  unfold handle_function_calls at h
  cases he : extractToolCalls output with
  | error e => rw [he] at h; cases h
  | ok p =>
      obtain ⟨cleaned, pcs⟩ := p
      rw [he] at h
      simp only [Except.ok.injEq] at h
      subst h
      refine ⟨_, rfl, ?_, ?_⟩
      · cases hp : pcs with
        | nil => simp [mkResponse, hp]
        | cons q qs =>
            subst hp
            simp only [mkResponse]
            constructor
            · intro _
              simp [List.enum_cons]
            · intro _
              simp [List.isEmpty]
      · cases hp : pcs.isEmpty <;> simp [mkResponse, hp]

/-- C5 witness: on an input matching no convention the response has one
choice, finish_reason `stop`, and an empty call list (this is also the
spec's no-match round-trip). -/
theorem finish_reason_iff_tool_calls_witness :
    ∃ c, ({ id := "chatcmpl-0", object := "chat.completion", created := 0, model := "m",
            choices := [{ index := 0, message_role := "assistant",
                          message_content := "Hello, world!", finish_reason := "stop" }],
            tool_calls := [] } : ChatCompletionResponse).choices = [c] ∧
      (c.finish_reason = "tool_call" ↔
        ({ id := "chatcmpl-0", object := "chat.completion", created := 0, model := "m",
           choices := [{ index := 0, message_role := "assistant",
                         message_content := "Hello, world!", finish_reason := "stop" }],
           tool_calls := [] } : ChatCompletionResponse).tool_calls ≠ []) ∧
      (c.finish_reason = "tool_call" ∨ c.finish_reason = "stop") :=
  finish_reason_iff_tool_calls "Hello, world!" reqEx rand0 0 _ (by decide)

/-- Helper: the VLM stream loop emits one chunk per fragment with indexed
ids, then the sentinel. -/
theorem vlmStreamAux_eq (modelName : String) (rand : Nat → String) (now : Nat) :
    ∀ (ts : List String) (n : Nat),
    vlmStreamAux modelName rand now n ts =
      (ts.enumFrom n).map (fun p => SSEvent.chunk (mkChunk modelName p.2 (rand p.1) now)) ++ [.done] := by
  intro ts
  induction ts with
  | nil => intro n; simp [vlmStreamAux]
  | cons t tl ih => intro n; simp [vlmStreamAux, List.enumFrom, ih]

/-- Helper: the LM stream loop emits chunks for the fragments before the
first stop hit, then the sentinel. -/
theorem lmStreamAux_eq (modelName : String) (stop_words : Option String)
    (rand : Nat → String) (now : Nat) :
    ∀ (ts : List String) (n : Nat),
    lmStreamAux modelName stop_words rand now n ts =
      ((ts.takeWhile (fun t => !stopHit stop_words t)).enumFrom n).map
        (fun p => SSEvent.chunk (mkChunk modelName p.2 (rand p.1) now)) ++ [.done] := by
  intro ts
  induction ts with
  | nil => intro n; simp [lmStreamAux]
  | cons t tl ih =>
      intro n
      cases hs : stopHit stop_words t with
      | true => simp [lmStreamAux, hs, List.takeWhile_cons]
      | false => simp [lmStreamAux, hs, List.takeWhile_cons, List.enumFrom, ih]

/-- C3 counterexample: with stop words set, `lm_stream_generator` consumes
the three-fragment sequence `["a", "X", "b"]` but emits only one chunk
before `[DONE]` — not three chunks followed by the sentinel as the claim
states for every fragment sequence (`"X"` is a Python substring of the stop
string `"XY"`, so the loop breaks). -/
theorem lm_stream_stopword_counterexample :
    lm_stream_generator "m" ["a", "X", "b"] (some "XY") rand0 0 =
      [.chunk (mkChunk "m" "a" "0" 0), .done] ∧
    (lm_stream_generator "m" ["a", "X", "b"] (some "XY") rand0 0).length ≠ 3 + 1 := by
  decide

/-- C3 amended.  Streaming framing: the VLM encoder emits exactly one chunk
per fragment, in order, each carrying the fragment verbatim as
`delta.content` with role `assistant` and null finish_reason, followed by
exactly one `[DONE]` sentinel.  The LM encoder does the same for the
fragments strictly before the first one passing the stop-word test (all of
them when none does, in particular whenever no stop word is configured),
followed by exactly one sentinel. -/
theorem stream_framing_amended (modelName : String) (tokens : List String)
    (stop_words : Option String) (rand : Nat → String) (now : Nat) :
    vlm_stream_generator modelName tokens rand now =
      tokens.enum.map (fun p => SSEvent.chunk (mkChunk modelName p.2 (rand p.1) now)) ++ [.done] ∧
    lm_stream_generator modelName tokens stop_words rand now =
      (tokens.takeWhile (fun t => !stopHit stop_words t)).enum.map
        (fun p => SSEvent.chunk (mkChunk modelName p.2 (rand p.1) now)) ++ [.done] := by
  constructor
  · simpa [List.enum] using vlmStreamAux_eq modelName rand now tokens 0
  · simpa [List.enum] using lmStreamAux_eq modelName stop_words rand now tokens 0

/-- Helper: if no part is an image part, the image accumulator passes
through the part loop unchanged. -/
theorem flattenParts_imgNone :
    ∀ (ps : List ContentPart) (txt : String) (img : Option String),
    ps.all (fun p => p.type ≠ "image_url") = true →
    (flattenParts ps txt img).2 = img := by
  intro ps
  induction ps with
  | nil => intro txt img _; rfl
  | cons p tl ih =>
      intro txt img h
      simp only [List.all_cons, Bool.and_eq_true, decide_eq_true_eq] at h
      obtain ⟨hp, hrest⟩ := h
      unfold flattenParts
      by_cases h1 : p.type = "text"
      · rw [if_pos h1]
        exact ih _ _ (by simpa using hrest)
      · rw [if_neg h1, if_neg hp]
        exact ih _ _ (by simpa using hrest)

/-- Helper: a message list with no image reference leaves the captured
image as it started. -/
theorem flattenMsgs_imgNone :
    ∀ (msgs : List ChatMessage) (img : Option String),
    noImageRef msgs = true →
    (flattenMsgs msgs img).1 = img := by
  intro msgs
  induction msgs with
  | nil => intro img _; rfl
  | cons m ms ih =>
      intro img h
      simp only [noImageRef, List.all_cons, Bool.and_eq_true] at h
      obtain ⟨hm, hrest⟩ := h
      cases hc : m.content with
      | str s =>
          simp only [flattenMsgs, hc]
          exact ih img (by simpa [noImageRef] using hrest)
      | parts ps =>
          rw [hc] at hm
          simp only [flattenMsgs, hc]
          rw [flattenParts_imgNone ps "" img hm]
          exact ih img (by simpa [noImageRef] using hrest)

/-- C4.  Routing validation: a request routed to a multimodal model whose
message list yields no image reference anywhere is rejected with the
client error `HTTPException(400, "Image URL not provided for VLM model")`
(fastmlx.py:163-166), and the generator invocation count is 0 — the check
sits before prompt construction, streaming dispatch and generation. -/
theorem vlm_missing_image_rejected (env : Env) (request : ChatCompletionRequest)
    (h1 : remapModelType (env.loadModelData request.model).configModelType ∈ env.modelsVlm)
    (h2 : noImageRef request.messages = true) :
    chat_completion env request =
      (.error (.httpException 400 "Image URL not provided for VLM model"), 0) := by
  have himg : (flattenMsgs request.messages none).1 = none :=
    flattenMsgs_imgNone request.messages none h2
  simp [chat_completion, h1, himg, imageFalsy]

/-- C4 witness: a concrete multimodal request carrying only text rejects
with the 400 client error and zero generator calls. -/
theorem vlm_missing_image_rejected_witness :
    (remapModelType (envVlm.loadModelData reqVlmNoImg.model).configModelType ∈ envVlm.modelsVlm) ∧
    noImageRef reqVlmNoImg.messages = true ∧
    chat_completion envVlm reqVlmNoImg =
      (.error (.httpException 400 "Image URL not provided for VLM model"), 0) :=
  ⟨by decide, by decide,
   vlm_missing_image_rejected envVlm reqVlmNoImg (by decide) (by decide)⟩

/-- C9.  On the text-only path an empty message list is not rejected as a
client error: with no tools and a template-less tokenizer the handler
evaluates `request.messages[-1].content` (utils.py:161) and raises
IndexError, which FastAPI surfaces as a server error — the claimed 4xx
rejection does not exist in the code. -/
theorem empty_messages_lm_index_error (env : Env) (request : ChatCompletionRequest)
    (h1 : remapModelType (env.loadModelData request.model).configModelType ∉ env.modelsVlm)
    (h2 : request.messages = [])
    (h3 : request.tools = none)
    (h4 : (env.loadModelData request.model).tokenizer.chat_template = false) :
    chat_completion env request = (.error (.indexError "list index out of range"), 0) := by
  simp [chat_completion, h1, h2, h3, h4, lmToolsBlock, toolsTruthy, apply_lm_chat_template]

/-- C9 witness: the concrete empty-messages text-only request ends in the
IndexError, not in an HTTP client error. -/
theorem empty_messages_lm_index_error_witness :
    chat_completion envLMNoTmpl reqEmptyLm = (.error (.indexError "list index out of range"), 0) :=
  empty_messages_lm_index_error envLMNoTmpl reqEmptyLm (by decide) rfl rfl rfl

/-- C10.  Every non-streaming request routed to the text-only path raises
and never yields a ChatCompletionResponse: when the earlier steps succeed,
`output, token_length_info = lm_generate(...)` unpacks the single returned
string (ValueError unless it has exactly two characters) and the surviving
case calls `handle_function_calls` with three positional arguments against
its two-parameter definition (TypeError). -/
theorem lm_nonstream_always_raises (env : Env) (request : ChatCompletionRequest)
    (h1 : remapModelType (env.loadModelData request.model).configModelType ∉ env.modelsVlm)
    (h2 : request.stream = false) :
    ((chat_completion env request).1).isOk = false := by
  unfold chat_completion
  rw [if_neg h1]
  split
  · simp [Except.isOk, Except.toBool]
  · simp only [h2, Bool.false_eq_true, if_false]
    split
    · simp [Except.isOk, Except.toBool]
    · split
      · simp [Except.isOk, Except.toBool]
      · simp [handle_function_calls_call3, Except.map, Except.isOk, Except.toBool]

/-- C10 witness: a concrete well-formed non-streaming text-only request
produces no successful response. -/
theorem lm_nonstream_always_raises_witness :
    ((chat_completion envLM reqLm).1).isOk = false :=
  lm_nonstream_always_raises envLM reqLm (by decide) rfl
